import Mathlib

/-!
# Verification of `fast-memo` (`src/memoize.ts`)

A shallow embedding of the memoization cache in `src/memoize.ts`.

Modelling choices, mirroring the JavaScript runtime:
* JavaScript values are untyped, so results and errors share one value
  type `V` (a type parameter).  For concrete evaluation we instantiate
  `V` with `Nat` or with `JSVal` (a small model of JS primitives).
* The cache is a `Map<string, CacheEntry>`; JavaScript `Map` preserves
  insertion order, `set` on an existing key keeps its position, `set` on
  a new key appends, `delete` removes.  We model it as an ordered
  association list with exactly those operations.
* Time (`Date.now()`) is an explicit `Nat` parameter at every step.
* A `Promise` is modelled by an identifier (`Nat`): the dispatcher
  allocates a fresh id for the chained promise it stores and returns
  (lines 83–107 of the source); its settlement is a separate step
  (`onSettle`, the `.then`/`.catch` continuations) driven by the
  eventual outcome of the underlying computation.
* `memoized` (lines 53–108) becomes `memoCall`: given the current time,
  the state, the fingerprint produced by the key generator, and the
  outcome of invoking the underlying function on a miss, it returns the
  call's result, the new state, and whether the underlying function was
  invoked.  A thrown key generator is modelled by `memoizedEntry`
  taking an `Except` for the key (line 54 runs before any cache access).
-/

set_option autoImplicit false

namespace FastMemo

universe u

/-- The value slot of a cache entry (`value: Result | Promise<Result>`,
and for error entries the stored error): either an immediate value or a
handle to a pending promise, identified by its id. -/
inductive Val (V : Type u) where
  | imm (v : V)
  | pending (pid : Nat)
  deriving DecidableEq, Repr

/-- `CacheEntry` from lines 11–15 of the source. -/
structure CacheEntry (V : Type u) where
  value : Val V
  expiresAt : Nat
  isError : Bool := false
  deriving DecidableEq, Repr

/-- The recognized options (lines 4–9, with the defaults of lines 37–42). -/
structure Config where
  ttl : Nat := 300000
  cacheErrors : Bool := false
  errorTTL : Nat := 30000
  deriving DecidableEq, Repr

/-- The ordered association list modelling the `Map` entries. -/
abbrev CacheMap (V : Type u) := List (String × CacheEntry V)

/-- `cache.get(key)`. -/
def mapGet {V : Type u} (c : CacheMap V) (k : String) : Option (CacheEntry V) :=
  match c with
  | [] => none
  | (k', e) :: rest => if k' = k then some e else mapGet rest k

/-- `cache.set(key, entry)`: overwrite in place when the key is present
(JavaScript `Map.set` keeps the original insertion position), append
otherwise. -/
def mapSet {V : Type u} (c : CacheMap V) (k : String) (e : CacheEntry V) : CacheMap V :=
  match c with
  | [] => [(k, e)]
  | (k', e') :: rest => if k' = k then (k', e) :: rest else (k', e') :: mapSet rest k e

/-- `cache.delete(key)`.  A JavaScript `Map` never holds two pairs with
the same key, so on every reachable cache removing all occurrences of
`k` coincides with `Map.delete`. -/
def mapDelete {V : Type u} (c : CacheMap V) (k : String) : CacheMap V :=
  match c with
  | [] => []
  | (k', e') :: rest => if k' = k then mapDelete rest k else (k', e') :: mapDelete rest k

/-- The mutable state owned by one wrapped function: the `Map` of line
43, plus a supply of fresh promise ids for the embedding. -/
structure MemoState (V : Type u) where
  cache : CacheMap V
  nextPid : Nat := 0
  deriving DecidableEq, Repr

/-- What a call to the wrapped function does: return a value (possibly
a promise handle) or throw a value. -/
inductive CallResult (V : Type u) where
  | ret (v : Val V)
  | thrown (v : Val V)
  deriving DecidableEq, Repr

/-- The observable behaviour of one invocation of the underlying
function `fn` at lines 62–64: return a plain (non-promise) value,
throw synchronously, or return a promise (whose settlement arrives
later, as an `onSettle` step). -/
inductive FnOutcome (V : Type u) where
  | sync (v : V)
  | throws (e : V)
  | async
  deriving DecidableEq, Repr

/-- `purgeIfExpired` (lines 45–51): when `Date.now() > entry.expiresAt`,
delete the entry and report `true`. -/
def purgeIfExpired {V : Type u} (now : Nat) (k : String) (entry : CacheEntry V)
    (c : CacheMap V) : Bool × CacheMap V :=
  if now > entry.expiresAt then (true, mapDelete c k) else (false, c)

/-- The cache-miss path, lines 60–107: invoke `fn`; on a synchronous
throw cache the error when `cacheErrors` and re-throw; on a synchronous
value cache it with `now + ttl` and return it; on a promise, chain the
continuations (a fresh pid names the chained promise), store the
pending entry with `now + ttl`, and return the chained promise. -/
def missPath {V : Type u} (cfg : Config) (now : Nat) (st : MemoState V) (key : String)
    (outcome : FnOutcome V) : CallResult V × MemoState V × Bool :=
  match outcome with
  | .throws e =>
      let st' := if cfg.cacheErrors then
          { st with cache := mapSet st.cache key ⟨Val.imm e, now + cfg.errorTTL, true⟩ }
        else st
      (.thrown (.imm e), st', true)
  | .sync v =>
      (.ret (.imm v),
        { st with cache := mapSet st.cache key ⟨Val.imm v, now + cfg.ttl, false⟩ },
        true)
  | .async =>
      let pid := st.nextPid
      (.ret (.pending pid),
        { cache := mapSet st.cache key ⟨Val.pending pid, now + cfg.ttl, false⟩,
          nextPid := pid + 1 },
        true)

/-- `memoized` (lines 53–108), after the key has been computed: look up
the entry; if present and not purged as expired, re-throw error entries
and return the stored value (possibly a pending promise handle)
otherwise; on a miss (or after a purge) run the miss path.  The third
component records whether the underlying function was invoked. -/
def memoCall {V : Type u} (cfg : Config) (now : Nat) (st : MemoState V) (key : String)
    (outcome : FnOutcome V) : CallResult V × MemoState V × Bool :=
  match mapGet st.cache key with
  | some entry =>
      match purgeIfExpired now key entry st.cache with
      | (true, c') => missPath cfg now { st with cache := c' } key outcome
      | (false, _) =>
          if entry.isError then (.thrown entry.value, st, false)
          else (.ret entry.value, st, false)
  | none => missPath cfg now st key outcome

/-- Line 54: `const key = keyGenerator(...args)` runs before any cache
access; a throwing key generator propagates out of the call untouched. -/
def memoizedEntry {V : Type u} (cfg : Config) (now : Nat) (st : MemoState V)
    (keyRes : Except V String) (outcome : FnOutcome V) :
    CallResult V × MemoState V × Bool :=
  match keyRes with
  | .error e => (.thrown (.imm e), st, false)
  | .ok key => memoCall cfg now st key outcome

/-- The `.then`/`.catch` continuations of lines 83–102, run when the
underlying promise for `key` settles at time `now` with `res`: on
success overwrite the entry with the settled value and `now + ttl` and
resolve the chained promise with the value; on failure overwrite with
an error entry (`cacheErrors`) or delete the entry, and reject the
chained promise with the same error. -/
def onSettle {V : Type u} (cfg : Config) (key : String) (now : Nat) (res : Except V V)
    (st : MemoState V) : Except V V × MemoState V :=
  match res with
  | .ok val =>
      (.ok val, { st with cache := mapSet st.cache key ⟨Val.imm val, now + cfg.ttl, false⟩ })
  | .error e =>
      if cfg.cacheErrors then
        (.error e, { st with cache := mapSet st.cache key ⟨Val.imm e, now + cfg.errorTTL, true⟩ })
      else
        (.error e, { st with cache := mapDelete st.cache key })

/-- `clear` (lines 111–119): with no argument, empty the whole store;
with an argument list, recompute its fingerprint with the active key
generator and delete only that entry. -/
def clear {V : Type u} {A : Type} (keyGen : List A → String) (st : MemoState V)
    (args? : Option (List A)) : MemoState V :=
  match args? with
  | none => { st with cache := [] }
  | some args => { st with cache := mapDelete st.cache (keyGen args) }

/-- `stats` (lines 120–123): entry count and the ordered fingerprints. -/
def stats {V : Type u} (st : MemoState V) : Nat × List String :=
  (st.cache.length, st.cache.map Prod.fst)

/-- Replay a sequence of calls with the same fingerprint and the same
would-be outcome at the given times, accumulating the results and the
number of underlying invocations. -/
def runCalls {V : Type u} (cfg : Config) (key : String) (outcome : FnOutcome V) :
    List Nat → MemoState V → MemoState V × List (CallResult V) × Nat
  | [], st => (st, [], 0)
  | t :: ts, st =>
      let r := memoCall cfg t st key outcome
      let rest := runCalls cfg key outcome ts r.2.1
      (rest.1, r.1 :: rest.2.1, (if r.2.2 then 1 else 0) + rest.2.2)

/-- A small model of JavaScript primitive values, enough to state
truthiness. -/
inductive JSVal where
  | undef
  | null
  | bool (b : Bool)
  | num (n : Int)
  | str (s : String)
  deriving DecidableEq, Repr

/-- JavaScript falsiness on `JSVal`. -/
def JSVal.falsy : JSVal → Bool
  | .undef => true
  | .null => true
  | .bool b => !b
  | .num n => n == 0
  | .str s => s.isEmpty

-- Sanity checks of the embedding on concrete runs.
example :
    memoCall (V := Nat) ⟨100, false, 30⟩ 0 ⟨[], 0⟩ "k" (.sync 5) =
      (.ret (.imm 5), ⟨[("k", ⟨.imm 5, 100, false⟩)], 0⟩, true) := by decide

example :
    memoCall (V := Nat) ⟨100, false, 30⟩ 100 ⟨[("k", ⟨.imm 5, 100, false⟩)], 0⟩ "k"
      (.sync 7) = (.ret (.imm 5), ⟨[("k", ⟨.imm 5, 100, false⟩)], 0⟩, false) := by decide

example :
    memoCall (V := Nat) ⟨100, false, 30⟩ 101 ⟨[("k", ⟨.imm 5, 100, false⟩)], 0⟩ "k"
      (.sync 7) = (.ret (.imm 7), ⟨[("k", ⟨.imm 7, 201, false⟩)], 0⟩, true) := by decide

example :
    memoCall (V := Nat) ⟨100, false, 30⟩ 0 ⟨[], 0⟩ "k" .async =
      (.ret (.pending 0), ⟨[("k", ⟨.pending 0, 100, false⟩)], 1⟩, true) := by decide

example :
    onSettle (V := Nat) ⟨100, false, 30⟩ "k" 40 (.error 9)
        ⟨[("k", ⟨.pending 0, 100, false⟩)], 1⟩ =
      (.error 9, ⟨[], 1⟩) := rfl

/-! ## Map lemmas -/

theorem mapGet_mapSet_self {V : Type u} (c : CacheMap V) (k : String) (e : CacheEntry V) :
    mapGet (mapSet c k e) k = some e := by
  induction c with
  | nil => simp [mapSet, mapGet]
  | cons p rest ih =>
      obtain ⟨k', e'⟩ := p
      by_cases h : k' = k <;> simp [mapSet, mapGet, h, ih]

theorem mapGet_mapSet_ne {V : Type u} (c : CacheMap V) (k k' : String) (e : CacheEntry V)
    (h : k' ≠ k) : mapGet (mapSet c k e) k' = mapGet c k' := by
  induction c with
  | nil => simp [mapSet, mapGet, Ne.symm h]
  | cons p rest ih =>
      obtain ⟨k₀, e₀⟩ := p
      by_cases h0 : k₀ = k
      · subst h0
        simp [mapSet, mapGet, Ne.symm h]
      · by_cases h1 : k₀ = k' <;> simp [mapSet, mapGet, h0, h1, h, ih]

theorem mapGet_mapDelete_self {V : Type u} (c : CacheMap V) (k : String) :
    mapGet (mapDelete c k) k = none := by
  induction c with
  | nil => simp [mapDelete, mapGet]
  | cons p rest ih =>
      obtain ⟨k', e'⟩ := p
      by_cases h : k' = k <;> simp [mapDelete, mapGet, h, ih]

theorem mapGet_mapDelete_ne {V : Type u} (c : CacheMap V) (k k' : String)
    (h : k' ≠ k) : mapGet (mapDelete c k) k' = mapGet c k' := by
  induction c with
  | nil => simp [mapDelete, mapGet]
  | cons p rest ih =>
      obtain ⟨k₀, e₀⟩ := p
      by_cases h0 : k₀ = k
      · subst h0
        simp [mapDelete, mapGet, Ne.symm h, ih]
      · by_cases h1 : k₀ = k' <;> simp [mapDelete, mapGet, h0, h1, h, ih]

/-! ## Dispatcher lemmas -/

/-- A live, non-error entry is served as-is: no store mutation, no
underlying invocation. -/
theorem memoCall_hit {V : Type u} (cfg : Config) (now : Nat) (st : MemoState V)
    (key : String) (outcome : FnOutcome V) (entry : CacheEntry V)
    (hget : mapGet st.cache key = some entry) (hlive : now ≤ entry.expiresAt)
    (herr : entry.isError = false) :
    memoCall cfg now st key outcome = (.ret entry.value, st, false) := by
  have hnot : ¬ entry.expiresAt < now := Nat.not_lt.mpr hlive
  simp [memoCall, hget, purgeIfExpired, hnot, herr]

/-- A live error entry is re-thrown as-is. -/
theorem memoCall_hit_error {V : Type u} (cfg : Config) (now : Nat) (st : MemoState V)
    (key : String) (outcome : FnOutcome V) (entry : CacheEntry V)
    (hget : mapGet st.cache key = some entry) (hlive : now ≤ entry.expiresAt)
    (herr : entry.isError = true) :
    memoCall cfg now st key outcome = (.thrown entry.value, st, false) := by
  have hnot : ¬ entry.expiresAt < now := Nat.not_lt.mpr hlive
  simp [memoCall, hget, purgeIfExpired, hnot, herr]

/-- An expired entry is purged at lookup and the call proceeds as a
miss on the purged store. -/
theorem memoCall_expired {V : Type u} (cfg : Config) (now : Nat) (st : MemoState V)
    (key : String) (outcome : FnOutcome V) (entry : CacheEntry V)
    (hget : mapGet st.cache key = some entry) (hexp : entry.expiresAt < now) :
    memoCall cfg now st key outcome =
      missPath cfg now { st with cache := mapDelete st.cache key } key outcome := by
  simp [memoCall, hget, purgeIfExpired, hexp]

/-- An absent entry sends the call down the miss path. -/
theorem memoCall_none {V : Type u} (cfg : Config) (now : Nat) (st : MemoState V)
    (key : String) (outcome : FnOutcome V)
    (hget : mapGet st.cache key = none) :
    memoCall cfg now st key outcome = missPath cfg now st key outcome := by
  simp [memoCall, hget]

/-- The miss path always invokes the underlying function. -/
theorem missPath_invoked {V : Type u} (cfg : Config) (now : Nat) (st : MemoState V)
    (key : String) (outcome : FnOutcome V) :
    (missPath cfg now st key outcome).2.2 = true := by
  cases outcome <;> rfl

/-- While a live, non-error entry is in place, any number of further
calls with the same fingerprint return its stored value unchanged,
mutate nothing, and never invoke the underlying function. -/
theorem runCalls_join {V : Type u} (cfg : Config) (key : String) (outcome : FnOutcome V)
    (ts : List Nat) (st : MemoState V) (entry : CacheEntry V)
    (hget : mapGet st.cache key = some entry) (herr : entry.isError = false)
    (hts : ∀ t ∈ ts, t ≤ entry.expiresAt) :
    runCalls cfg key outcome ts st =
      (st, ts.map (fun _ => CallResult.ret entry.value), 0) := by
  induction ts with
  | nil => rfl
  | cons t ts ih =>
      have hhit := memoCall_hit cfg t st key outcome entry hget
        (hts t (List.mem_cons_self t ts)) herr
      have hrest := ih (fun u hu => hts u (List.mem_cons_of_mem t hu))
      simp [runCalls, hhit, hrest]

/-! ## Concrete fixtures for witnesses -/

/-- A configuration with `ttl = 100`, errors not cached. -/
def cfgN : Config := ⟨100, false, 30⟩

/-- A configuration with `ttl = 100`, errors cached with `errorTTL = 50`. -/
def cfgE : Config := ⟨100, true, 50⟩

/-! ## Claims -/

/-- C3: an entry is served from cache only while `now ≤ expiresAt`.  A
call at a time strictly after the entry's `expiresAt` deletes the entry
from the store at the moment of lookup (the purged store no longer has
the key) and proceeds as a miss, invoking the underlying function; a
call at a time exactly equal to `expiresAt` is still served from the
cache (value returned, or error re-thrown), with no store mutation and
no underlying invocation. -/
theorem C3_expiry_boundary {V : Type u} (cfg : Config) (st : MemoState V) (key : String)
    (entry : CacheEntry V) (t : Nat) (outcome : FnOutcome V)
    (hget : mapGet st.cache key = some entry)
    (hlate : entry.expiresAt < t) :
    (memoCall cfg t st key outcome =
        missPath cfg t { st with cache := mapDelete st.cache key } key outcome ∧
      mapGet (mapDelete st.cache key) key = none ∧
      (memoCall cfg t st key outcome).2.2 = true) ∧
    memoCall cfg entry.expiresAt st key outcome =
      ((if entry.isError then CallResult.thrown entry.value else CallResult.ret entry.value),
        st, false) := by
  have hmiss := memoCall_expired cfg t st key outcome entry hget hlate
  refine ⟨⟨hmiss, mapGet_mapDelete_self st.cache key, ?_⟩, ?_⟩
  · rw [hmiss]
    exact missPath_invoked cfg t { st with cache := mapDelete st.cache key } key outcome
  · by_cases he : entry.isError = true
    · rw [memoCall_hit_error cfg entry.expiresAt st key outcome entry hget le_rfl he, he]
      simp
    · have he' : entry.isError = false := by simpa using he
      rw [memoCall_hit cfg entry.expiresAt st key outcome entry hget le_rfl he', he']
      simp

theorem C3_expiry_boundary_witness :
    mapGet (MemoState.cache (V := Nat) ⟨[("k", ⟨.imm 5, 50, false⟩)], 0⟩) "k" =
      some ⟨.imm 5, 50, false⟩ ∧
    (50 : Nat) < 51 ∧
    ((memoCall (V := Nat) cfgN 51 ⟨[("k", ⟨.imm 5, 50, false⟩)], 0⟩ "k" (.sync 7) =
        missPath cfgN 51 ⟨mapDelete [("k", ⟨.imm 5, 50, false⟩)] "k", 0⟩ "k" (.sync 7) ∧
      mapGet (mapDelete [("k", (⟨.imm 5, 50, false⟩ : CacheEntry Nat))] "k") "k" = none ∧
      (memoCall (V := Nat) cfgN 51 ⟨[("k", ⟨.imm 5, 50, false⟩)], 0⟩ "k" (.sync 7)).2.2 =
        true) ∧
    memoCall (V := Nat) cfgN 50 ⟨[("k", ⟨.imm 5, 50, false⟩)], 0⟩ "k" (.sync 7) =
      ((if (false : Bool) then CallResult.thrown (.imm 5) else CallResult.ret (.imm 5)),
        ⟨[("k", ⟨.imm 5, 50, false⟩)], 0⟩, false)) :=
  ⟨by decide, by decide,
    C3_expiry_boundary cfgN ⟨[("k", ⟨.imm 5, 50, false⟩)], 0⟩ "k" ⟨.imm 5, 50, false⟩ 51
      (.sync 7) (by decide) (by decide)⟩

/-- C6: the cache layer never converts a failure into a success or a
success into a failure.  On a miss, a synchronous throw is observed as
that throw by the triggering caller (whatever `cacheErrors` is) and a
synchronous value is returned as that value; when a pending computation
settles, the chained promise handed to the original and joined callers
rejects with exactly the underlying error, or resolves with exactly the
underlying value, again independently of `cacheErrors`. -/
theorem C6_no_outcome_conversion {V : Type u} (cfg : Config) (st st' : MemoState V)
    (key key' : String) (now now' : Nat) (e v : V)
    (h0 : mapGet st.cache key = none) :
    (memoCall cfg now st key (.throws e)).1 = .thrown (.imm e) ∧
    (memoCall cfg now st key (.sync v)).1 = .ret (.imm v) ∧
    (onSettle cfg key' now' (.error e) st').1 = .error e ∧
    (onSettle cfg key' now' (.ok v) st').1 = .ok v := by
  refine ⟨?_, ?_, ?_, rfl⟩
  · rw [memoCall_none cfg now st key (.throws e) h0]
    rfl
  · rw [memoCall_none cfg now st key (.sync v) h0]
    rfl
  · cases hc : cfg.cacheErrors <;> simp [onSettle, hc]

theorem C6_no_outcome_conversion_witness :
    mapGet (MemoState.cache (V := Nat) ⟨[], 0⟩) "k" = none ∧
    ((memoCall (V := Nat) cfgE 3 ⟨[], 0⟩ "k" (.throws 9)).1 = .thrown (.imm 9) ∧
      (memoCall (V := Nat) cfgE 3 ⟨[], 0⟩ "k" (.sync 4)).1 = .ret (.imm 4) ∧
      (onSettle (V := Nat) cfgE "j" 7 (.error 9) ⟨[], 0⟩).1 = .error 9 ∧
      (onSettle (V := Nat) cfgE "j" 7 (.ok 4) ⟨[], 0⟩).1 = .ok 4) :=
  ⟨by decide, C6_no_outcome_conversion cfgE ⟨[], 0⟩ ⟨[], 0⟩ "k" "j" 3 7 9 4 (by decide)⟩

/-- C7: when a pending computation settles successfully at time `s`,
the store entry for its fingerprint is overwritten with the settled
value and expiry `s + ttl` (the window restarts from settlement, not
from invocation), and the settled value is what the chained promise —
held by the original and all joined callers — resolves with. -/
theorem C7_success_overwrite {V : Type u} (cfg : Config) (key : String) (s : Nat)
    (val : V) (st : MemoState V) :
    onSettle cfg key s (.ok val) st =
      (.ok val, { st with cache := mapSet st.cache key ⟨.imm val, s + cfg.ttl, false⟩ }) ∧
    mapGet (onSettle cfg key s (.ok val) st).2.cache key =
      some ⟨.imm val, s + cfg.ttl, false⟩ := by
  refine ⟨rfl, ?_⟩
  simp [onSettle, mapGet_mapSet_self]

/-- C9: when the key generator throws, the failure propagates to the
caller as a throw of that very value, the state (hence the entry store)
is returned completely unchanged, and the underlying function is not
invoked. -/
theorem C9_keygen_failure {V : Type u} (cfg : Config) (now : Nat) (st : MemoState V)
    (e : V) (outcome : FnOutcome V) :
    memoizedEntry cfg now st (.error e) outcome = (.thrown (.imm e), st, false) := rfl

/-- C10: a synchronous falsy result (undefined, null, false, 0, the
empty string) is cached like any other: the first call stores it under
`now + ttl` and a second call within `ttl` returns exactly that falsy
value from the cache without invoking the underlying function — a hit
is decided by the presence of the entry, never by the truthiness of the
stored value. -/
theorem C10_falsy_cached (cfg : Config) (st : MemoState JSVal) (key : String)
    (v : JSVal) (t1 t2 : Nat) (outcome2 : FnOutcome JSVal)
    (_hfalsy : v.falsy = true)
    (h0 : mapGet st.cache key = none)
    (h12 : t2 ≤ t1 + cfg.ttl) :
    memoCall cfg t1 st key (.sync v) =
      (.ret (.imm v),
        { st with cache := mapSet st.cache key ⟨.imm v, t1 + cfg.ttl, false⟩ }, true) ∧
    memoCall cfg t2 (memoCall cfg t1 st key (.sync v)).2.1 key outcome2 =
      (.ret (.imm v), (memoCall cfg t1 st key (.sync v)).2.1, false) := by
  have h1 : memoCall cfg t1 st key (.sync v) =
      (.ret (.imm v),
        { st with cache := mapSet st.cache key ⟨.imm v, t1 + cfg.ttl, false⟩ }, true) := by
    rw [memoCall_none cfg t1 st key (.sync v) h0]
    rfl
  refine ⟨h1, ?_⟩
  rw [h1]
  exact memoCall_hit cfg t2 _ key outcome2 ⟨.imm v, t1 + cfg.ttl, false⟩
    (mapGet_mapSet_self st.cache key _) h12 rfl

theorem C10_falsy_cached_witness :
    JSVal.falsy (.num 0) = true ∧
    mapGet (MemoState.cache (V := JSVal) ⟨[], 0⟩) "k" = none ∧
    (100 : Nat) ≤ 0 + cfgN.ttl ∧
    (memoCall (V := JSVal) cfgN 0 ⟨[], 0⟩ "k" (.sync (.num 0)) =
      (.ret (.imm (.num 0)),
        ⟨mapSet [] "k" ⟨.imm (.num 0), 0 + cfgN.ttl, false⟩, 0⟩, true) ∧
    memoCall (V := JSVal) cfgN 100
        (memoCall (V := JSVal) cfgN 0 ⟨[], 0⟩ "k" (.sync (.num 0))).2.1 "k"
        (.sync (.num 1)) =
      (.ret (.imm (.num 0)),
        (memoCall (V := JSVal) cfgN 0 ⟨[], 0⟩ "k" (.sync (.num 0))).2.1, false)) :=
  ⟨by decide, by decide, by decide,
    C10_falsy_cached cfgN ⟨[], 0⟩ "k" (.num 0) 0 100 (.sync (.num 1))
      (by decide) (by decide) (by decide)⟩

/-- C1 counterexample: the claim as stated fails.  With `ttl = 100`, a
call at `t = 0` installs the pending computation (handle 0, expiry
`0 + ttl = 100`).  A second identical call at `t = 101`, before any
settlement step has run, finds the pending entry expired, purges it,
and invokes the underlying function a second time, receiving a
different pending handle (1, not 0): two underlying invocations and no
shared handle, although the first computation had not settled. -/
theorem C1_counterexample :
    runCalls (V := Nat) cfgN "k" .async [0, 101] ⟨[], 0⟩ =
      (⟨[("k", ⟨.pending 1, 201, false⟩)], 2⟩,
        [.ret (.pending 0), .ret (.pending 1)], 2) := by decide

/-- C1 (amended): once a pending computation is installed, every call
with the same fingerprint arriving before it settles **and no later
than `ttl` after installation** observes and shares that exact pending
handle: the first call at `t0` installs and returns handle
`st0.nextPid` (one underlying invocation), any list of further calls at
times `≤ t0 + ttl` all return exactly that handle with zero additional
invocations and no state change, and when the computation settles every
holder of the handle observes the one shared outcome `res` (the same
settled value or the same failure). -/
theorem C1_dedup_within_ttl {V : Type u} (cfg : Config) (key : String) (st0 : MemoState V)
    (t0 s : Nat) (ts : List Nat) (outcome : FnOutcome V) (res : Except V V)
    (h0 : mapGet st0.cache key = none)
    (hts : ∀ t ∈ ts, t ≤ t0 + cfg.ttl) :
    (memoCall cfg t0 st0 key FnOutcome.async).1 = .ret (.pending st0.nextPid) ∧
    (memoCall cfg t0 st0 key FnOutcome.async).2.2 = true ∧
    runCalls cfg key outcome ts (memoCall cfg t0 st0 key FnOutcome.async).2.1 =
      ((memoCall cfg t0 st0 key FnOutcome.async).2.1,
        ts.map (fun _ => CallResult.ret (.pending st0.nextPid)), 0) ∧
    (onSettle cfg key s res (memoCall cfg t0 st0 key FnOutcome.async).2.1).1 = res := by
  have h1 : memoCall cfg t0 st0 key FnOutcome.async =
      (.ret (.pending st0.nextPid),
        ⟨mapSet st0.cache key ⟨.pending st0.nextPid, t0 + cfg.ttl, false⟩,
          st0.nextPid + 1⟩, true) := by
    rw [memoCall_none cfg t0 st0 key .async h0]
    rfl
  rw [h1]
  refine ⟨rfl, rfl, ?_, ?_⟩
  · exact runCalls_join cfg key outcome ts _ ⟨.pending st0.nextPid, t0 + cfg.ttl, false⟩
      (mapGet_mapSet_self st0.cache key _) rfl hts
  · cases res with
    | ok v => rfl
    | error e => cases hc : cfg.cacheErrors <;> simp [onSettle, hc]

theorem C1_dedup_within_ttl_witness :
    mapGet (MemoState.cache (V := Nat) ⟨[], 0⟩) "k" = none ∧
    (∀ t ∈ [10, 50, 100], t ≤ 0 + cfgN.ttl) ∧
    ((memoCall (V := Nat) cfgN 0 ⟨[], 0⟩ "k" FnOutcome.async).1 = .ret (.pending 0) ∧
      (memoCall (V := Nat) cfgN 0 ⟨[], 0⟩ "k" FnOutcome.async).2.2 = true ∧
      runCalls cfgN "k" (.sync 3) [10, 50, 100]
          (memoCall (V := Nat) cfgN 0 ⟨[], 0⟩ "k" FnOutcome.async).2.1 =
        ((memoCall (V := Nat) cfgN 0 ⟨[], 0⟩ "k" FnOutcome.async).2.1,
          List.map (fun _ => CallResult.ret (.pending 0)) [10, 50, 100], 0) ∧
      (onSettle cfgN "k" 60 (.ok 42)
          (memoCall (V := Nat) cfgN 0 ⟨[], 0⟩ "k" FnOutcome.async).2.1).1 = .ok 42) :=
  ⟨by decide, by decide,
    C1_dedup_within_ttl cfgN "k" ⟨[], 0⟩ 0 60 [10, 50, 100] (.sync 3) (.ok 42)
      (by decide) (by decide)⟩

/-- C2 counterexample: the claim as stated fails.  With
`cacheErrors = false` and an underlying function that throws, two calls
with the same arguments at the same instant (trivially within `ttl` of
each other) each invoke the underlying function: two underlying
invocations, not at most one. -/
theorem C2_counterexample :
    (runCalls (V := Nat) cfgN "k" (.throws 7) [0, 0] ⟨[], 0⟩).2.2 = 2 := by decide

/-- C2 (amended): for every argument list, when the first call's
underlying computation does not fail, a second call within `ttl`
invokes the underlying function at most once more — namely never — and
yields the first call's result.  Concretely: after a synchronous
result, the second call returns the first call's result with no
invocation and no state change; after an asynchronous start that has
not settled, the second call returns the very same pending handle with
no invocation; after an asynchronous start that settled successfully at
time `s`, the second call returns the settled value from the cache with
no invocation — the value the first caller's handle resolved with. -/
theorem C2_idem_within_ttl {V : Type u} (cfg : Config) (key : String) (st : MemoState V)
    (t1 t2 s : Nat) (v val : V) (o2 : FnOutcome V)
    (h0 : mapGet st.cache key = none) (h12 : t2 ≤ t1 + cfg.ttl) (hs : t1 ≤ s) :
    (memoCall cfg t2 (memoCall cfg t1 st key (.sync v)).2.1 key o2 =
      ((memoCall cfg t1 st key (.sync v)).1,
        (memoCall cfg t1 st key (.sync v)).2.1, false)) ∧
    (memoCall cfg t2 (memoCall cfg t1 st key FnOutcome.async).2.1 key o2 =
      ((memoCall cfg t1 st key FnOutcome.async).1,
        (memoCall cfg t1 st key FnOutcome.async).2.1, false)) ∧
    ((onSettle cfg key s (.ok val) (memoCall cfg t1 st key FnOutcome.async).2.1).1 =
        .ok val ∧
      memoCall cfg t2
          (onSettle cfg key s (.ok val) (memoCall cfg t1 st key FnOutcome.async).2.1).2
          key o2 =
        (.ret (.imm val),
          (onSettle cfg key s (.ok val) (memoCall cfg t1 st key FnOutcome.async).2.1).2,
          false)) := by
  have hsync : memoCall cfg t1 st key (.sync v) =
      (.ret (.imm v),
        { st with cache := mapSet st.cache key ⟨.imm v, t1 + cfg.ttl, false⟩ }, true) := by
    rw [memoCall_none cfg t1 st key (.sync v) h0]
    rfl
  have hasync : memoCall cfg t1 st key FnOutcome.async =
      (.ret (.pending st.nextPid),
        ⟨mapSet st.cache key ⟨.pending st.nextPid, t1 + cfg.ttl, false⟩,
          st.nextPid + 1⟩, true) := by
    rw [memoCall_none cfg t1 st key .async h0]
    rfl
  refine ⟨?_, ?_, ?_, ?_⟩
  · rw [hsync]
    exact memoCall_hit cfg t2 _ key o2 ⟨.imm v, t1 + cfg.ttl, false⟩
      (mapGet_mapSet_self st.cache key _) h12 rfl
  · rw [hasync]
    exact memoCall_hit cfg t2 _ key o2 ⟨.pending st.nextPid, t1 + cfg.ttl, false⟩
      (mapGet_mapSet_self st.cache key _) h12 rfl
  · rfl
  · have h2s : t2 ≤ s + cfg.ttl := le_trans h12 (Nat.add_le_add_right hs cfg.ttl)
    rw [hasync]
    exact memoCall_hit cfg t2 _ key o2 ⟨.imm val, s + cfg.ttl, false⟩
      (mapGet_mapSet_self _ key _) h2s rfl

theorem C2_idem_within_ttl_witness :
    mapGet (MemoState.cache (V := Nat) ⟨[], 0⟩) "k" = none ∧
    (100 : Nat) ≤ 0 + cfgN.ttl ∧ (0 : Nat) ≤ 20 ∧
    ((memoCall (V := Nat) cfgN 100 (memoCall cfgN 0 ⟨[], 0⟩ "k" (.sync 5)).2.1 "k"
          (.sync 8) =
        ((memoCall (V := Nat) cfgN 0 ⟨[], 0⟩ "k" (.sync 5)).1,
          (memoCall (V := Nat) cfgN 0 ⟨[], 0⟩ "k" (.sync 5)).2.1, false)) ∧
      (memoCall (V := Nat) cfgN 100 (memoCall cfgN 0 ⟨[], 0⟩ "k" FnOutcome.async).2.1 "k"
          (.sync 8) =
        ((memoCall (V := Nat) cfgN 0 ⟨[], 0⟩ "k" FnOutcome.async).1,
          (memoCall (V := Nat) cfgN 0 ⟨[], 0⟩ "k" FnOutcome.async).2.1, false)) ∧
      ((onSettle cfgN "k" 20 (.ok 6)
            (memoCall (V := Nat) cfgN 0 ⟨[], 0⟩ "k" FnOutcome.async).2.1).1 = .ok 6 ∧
        memoCall cfgN 100
            (onSettle cfgN "k" 20 (.ok 6)
              (memoCall (V := Nat) cfgN 0 ⟨[], 0⟩ "k" FnOutcome.async).2.1).2 "k"
            (.sync 8) =
          (.ret (.imm 6),
            (onSettle cfgN "k" 20 (.ok 6)
              (memoCall (V := Nat) cfgN 0 ⟨[], 0⟩ "k" FnOutcome.async).2.1).2, false))) :=
  ⟨by decide, by decide, by decide,
    C2_idem_within_ttl cfgN "k" ⟨[], 0⟩ 0 100 20 5 6 (.sync 8)
      (by decide) (by decide) (by decide)⟩

/-- C4: when a pending computation fails and `cacheErrors = false`, the
`.catch` continuation deletes the entry for the fingerprint entirely
(the key is absent from the store afterwards), the chained promise held
by the original and all joined callers rejects with exactly that error,
and the next call with the same fingerprint finds no entry and invokes
the underlying function afresh. -/
theorem C4_error_delete {V : Type u} (cfg : Config) (key : String) (st : MemoState V)
    (e : V) (now t' : Nat) (o : FnOutcome V)
    (hce : cfg.cacheErrors = false) :
    onSettle cfg key now (.error e) st =
      (.error e, { st with cache := mapDelete st.cache key }) ∧
    mapGet (onSettle cfg key now (.error e) st).2.cache key = none ∧
    (memoCall cfg t' (onSettle cfg key now (.error e) st).2 key o).2.2 = true := by
  have h1 : onSettle cfg key now (.error e) st =
      (.error e, { st with cache := mapDelete st.cache key }) := by
    simp [onSettle, hce]
  rw [h1]
  refine ⟨rfl, mapGet_mapDelete_self st.cache key, ?_⟩
  rw [memoCall_none cfg t' _ key o (mapGet_mapDelete_self st.cache key)]
  exact missPath_invoked cfg t' _ key o

theorem C4_error_delete_witness :
    Config.cacheErrors cfgN = false ∧
    (onSettle (V := Nat) cfgN "k" 40 (.error 9) ⟨[("k", ⟨.pending 0, 100, false⟩)], 1⟩ =
        (.error 9,
          ⟨mapDelete [("k", ⟨.pending 0, 100, false⟩)] "k", 1⟩) ∧
      mapGet (onSettle (V := Nat) cfgN "k" 40 (.error 9)
          ⟨[("k", ⟨.pending 0, 100, false⟩)], 1⟩).2.cache "k" = none ∧
      (memoCall (V := Nat) cfgN 41
          (onSettle (V := Nat) cfgN "k" 40 (.error 9)
            ⟨[("k", ⟨.pending 0, 100, false⟩)], 1⟩).2 "k" FnOutcome.async).2.2 = true) :=
  ⟨by decide,
    C4_error_delete cfgN "k" ⟨[("k", ⟨.pending 0, 100, false⟩)], 1⟩ 9 40 41
      FnOutcome.async (by decide)⟩

/-- C5: with `cacheErrors = true`, a failing call at `tf` stores the
error under `tf + errorTTL` (both for a synchronous throw and for the
`.catch` continuation of an asynchronous failure) and the triggering
caller still observes the failure; an identical call at any `t` with
`t ≤ tf + errorTTL` re-throws exactly the stored error value with no
underlying invocation and no state change; a call at `t'` strictly
after `tf + errorTTL` invokes the underlying function again. -/
theorem C5_error_caching {V : Type u} (cfg : Config) (key : String) (st0 stA : MemoState V)
    (e : V) (tf t t' : Nat) (o o' : FnOutcome V)
    (hce : cfg.cacheErrors = true)
    (h0 : mapGet st0.cache key = none)
    (hwithin : t ≤ tf + cfg.errorTTL)
    (hafter : tf + cfg.errorTTL < t') :
    (memoCall cfg tf st0 key (.throws e)).1 = .thrown (.imm e) ∧
    mapGet (memoCall cfg tf st0 key (.throws e)).2.1.cache key =
      some ⟨.imm e, tf + cfg.errorTTL, true⟩ ∧
    mapGet (onSettle cfg key tf (.error e) stA).2.cache key =
      some ⟨.imm e, tf + cfg.errorTTL, true⟩ ∧
    memoCall cfg t (memoCall cfg tf st0 key (.throws e)).2.1 key o =
      (.thrown (.imm e), (memoCall cfg tf st0 key (.throws e)).2.1, false) ∧
    (memoCall cfg t' (memoCall cfg tf st0 key (.throws e)).2.1 key o').2.2 = true := by
  have h1 : memoCall cfg tf st0 key (.throws e) =
      (.thrown (.imm e),
        { st0 with cache := mapSet st0.cache key ⟨.imm e, tf + cfg.errorTTL, true⟩ },
        true) := by
    rw [memoCall_none cfg tf st0 key (.throws e) h0]
    simp [missPath, hce]
  rw [h1]
  refine ⟨rfl, mapGet_mapSet_self st0.cache key _, ?_, ?_, ?_⟩
  · simp [onSettle, hce, mapGet_mapSet_self]
  · exact memoCall_hit_error cfg t _ key o ⟨.imm e, tf + cfg.errorTTL, true⟩
      (mapGet_mapSet_self st0.cache key _) hwithin rfl
  · rw [memoCall_expired cfg t' _ key o' ⟨.imm e, tf + cfg.errorTTL, true⟩
      (mapGet_mapSet_self st0.cache key _) hafter]
    exact missPath_invoked cfg t' _ key o'

theorem C5_error_caching_witness :
    Config.cacheErrors cfgE = true ∧
    mapGet (MemoState.cache (V := Nat) ⟨[], 0⟩) "k" = none ∧
    (50 : Nat) ≤ 0 + cfgE.errorTTL ∧
    0 + cfgE.errorTTL < 51 ∧
    ((memoCall (V := Nat) cfgE 0 ⟨[], 0⟩ "k" (.throws 9)).1 = .thrown (.imm 9) ∧
      mapGet (memoCall (V := Nat) cfgE 0 ⟨[], 0⟩ "k" (.throws 9)).2.1.cache "k" =
        some ⟨.imm 9, 0 + cfgE.errorTTL, true⟩ ∧
      mapGet (onSettle (V := Nat) cfgE "k" 0 (.error 9) ⟨[], 3⟩).2.cache "k" =
        some ⟨.imm 9, 0 + cfgE.errorTTL, true⟩ ∧
      memoCall cfgE 50 (memoCall (V := Nat) cfgE 0 ⟨[], 0⟩ "k" (.throws 9)).2.1 "k"
          (.sync 1) =
        (.thrown (.imm 9),
          (memoCall (V := Nat) cfgE 0 ⟨[], 0⟩ "k" (.throws 9)).2.1, false) ∧
      (memoCall cfgE 51 (memoCall (V := Nat) cfgE 0 ⟨[], 0⟩ "k" (.throws 9)).2.1 "k"
          (.sync 1)).2.2 = true) :=
  ⟨by decide, by decide, by decide, by decide,
    C5_error_caching cfgE "k" ⟨[], 0⟩ ⟨[], 3⟩ 9 0 50 51 (.sync 1) (.sync 1)
      (by decide) (by decide) (by decide) (by decide)⟩

/-- C8: `clear` with no argument empties the whole store, after which
`stats` reports size 0; `clear` with an argument list recomputes its
fingerprint with the active key generator and deletes exactly that
entry — the fingerprint is absent afterwards while every other
fingerprint's entry is looked up unchanged. -/
theorem C8_clear {V : Type u} {A : Type} (keyGen : List A → String) (st : MemoState V)
    (args : List A) (k' : String) (hne : k' ≠ keyGen args) :
    (clear keyGen st none).cache = [] ∧
    (stats (clear keyGen st none)).1 = 0 ∧
    mapGet (clear keyGen st (some args)).cache (keyGen args) = none ∧
    mapGet (clear keyGen st (some args)).cache k' = mapGet st.cache k' := by
  refine ⟨rfl, rfl, ?_, ?_⟩
  · exact mapGet_mapDelete_self st.cache (keyGen args)
  · exact mapGet_mapDelete_ne st.cache (keyGen args) k' hne

theorem C8_clear_witness :
    "f2" ≠ (fun l : List Nat => if l = [1] then "f1" else "f2") [1] ∧
    ((clear (V := Nat) (fun l : List Nat => if l = [1] then "f1" else "f2")
        ⟨[("f1", ⟨.imm 10, 100, false⟩), ("f2", ⟨.imm 20, 100, false⟩)], 0⟩ none).cache =
        [] ∧
      (stats (clear (V := Nat) (fun l : List Nat => if l = [1] then "f1" else "f2")
        ⟨[("f1", ⟨.imm 10, 100, false⟩), ("f2", ⟨.imm 20, 100, false⟩)], 0⟩ none)).1 = 0 ∧
      mapGet (clear (V := Nat) (fun l : List Nat => if l = [1] then "f1" else "f2")
          ⟨[("f1", ⟨.imm 10, 100, false⟩), ("f2", ⟨.imm 20, 100, false⟩)], 0⟩
          (some [1])).cache
        ((fun l : List Nat => if l = [1] then "f1" else "f2") [1]) = none ∧
      mapGet (clear (V := Nat) (fun l : List Nat => if l = [1] then "f1" else "f2")
          ⟨[("f1", ⟨.imm 10, 100, false⟩), ("f2", ⟨.imm 20, 100, false⟩)], 0⟩
          (some [1])).cache "f2" =
        mapGet [("f1", ⟨.imm 10, 100, false⟩), ("f2", ⟨.imm 20, 100, false⟩)] "f2") :=
  ⟨by decide,
    C8_clear (fun l : List Nat => if l = [1] then "f1" else "f2")
      ⟨[("f1", ⟨.imm 10, 100, false⟩), ("f2", ⟨.imm 20, 100, false⟩)], 0⟩ [1] "f2"
      (by decide)⟩

end FastMemo
